import Mathlib

/-!
Verification of the pdf-interleave application (`src/App.tsx`).

The development shallowly embeds the logic of `App.tsx`:

* `formatBytes` — the byte-size display helper (lines 4–14);
* `mergePages` — the page-interleaving loop of `mergePdfs` (lines 135–149),
  a document being modelled as the list of its pages;
* `AppState` with the event handlers `handleOddChange`, `handleEvenChange`,
  `mergePdfs` and the `canMerge` readiness predicate, modelling the React
  component state and its transitions.

External collaborators (pdf-lib parsing and serialization, `FileReader`,
`URL.createObjectURL`) are modelled by data already carried on a file
(`PdfFile.parsed`) and by a `MergeEnv` oracle for serialization.
-/

set_option autoImplicit false

namespace PdfInterleave

/-- A page of a loaded document.  Pages are opaque values copied verbatim by
the merger, so a numeric token suffices. -/
abbrev Page := Nat

/-! ### The interleaving loop of `mergePdfs`

`App.tsx` lines 135–149:

```
const maxPages = Math.max(oddPages.length, evenPages.length);
for (let i = 0; i < maxPages; i += 1) {
  if (i < oddPages.length) { ... output.addPage(copy of oddPages[i]) }
  if (i < evenPages.length) { ... output.addPage(copy of evenPages[i]) }
}
```

The loop is embedded as a fold over `List.range maxPages`; the output
document is the accumulator list of appended pages. -/

/-- Pages appended by one `if (i < pages.length)` guard of the loop body:
the singleton `[l[i]]` when the index is in range, nothing otherwise. -/
def pageAt {α : Type} (l : List α) (i : Nat) : List α :=
  if h : i < l.length then [l[i]] else []

/-- The page sequence produced by the merge loop of `mergePdfs`
(`App.tsx` lines 138–149). -/
def mergePages {α : Type} (oddPages evenPages : List α) : List α :=
  (List.range (max oddPages.length evenPages.length)).foldl
    (fun acc i =>
      let acc1 := if h : i < oddPages.length then acc ++ [oddPages[i]] else acc
      if h : i < evenPages.length then acc1 ++ [evenPages[i]] else acc1)
    []

/-- Structural form of strict alternation, used to characterize
`mergePages`: heads alternate while both lists are nonempty, then the
leftover of the longer list follows. -/
def altcat {α : Type} : List α → List α → List α
  | [], ys => ys
  | x :: xs, [] => x :: xs
  | x :: xs, y :: ys => x :: y :: altcat xs ys

/-- Concatenation of the images of a list of indices; the shape in which the
merge loop's appends accumulate. -/
def catMap {α : Type} (g : Nat → List α) (l : List Nat) : List α :=
  l.foldr (fun i acc => g i ++ acc) []

/-! ### Component state (`App.tsx` lines 30–62, 78–172, 213)

React `useState` pieces become fields of `AppState`; each async handler is
a state transition function (the final state after all `set*` calls settle).
A selected file carries the parse outcome of its bytes
(`PdfFile.parsed = none` models `PDFDocument.load` rejecting, or a
`FileReader` failure).  `MergeEnv` supplies the outcomes of the remaining
external calls inside `mergePdfs`: `save` is `output.save()` (byte length on
success, `none` on failure) and `url` is the `URL.createObjectURL` result. -/

/-- The `PdfInfo` record of `App.tsx` lines 24–28. -/
structure PdfInfo where
  name : String
  pages : Nat
  size : Nat
deriving Repr, DecidableEq

/-- The reset value `{ name: "-", pages: 0, size: 0 }` used for empty slots
and for the cleared result. -/
def emptyInfo : PdfInfo := { name := "-", pages := 0, size := 0 }

/-- A user-selected file: its name, byte size, and the result of parsing its
bytes with the PDF library (`none` = load failure). -/
structure PdfFile where
  name : String
  size : Nat
  parsed : Option (List Page)
deriving Repr, DecidableEq

/-- The component state of `App` (`App.tsx` lines 31–50). -/
structure AppState where
  oddFile : Option PdfFile
  evenFile : Option PdfFile
  oddInfo : PdfInfo
  evenInfo : PdfInfo
  status : String
  busy : Bool
  downloadUrl : String
  resultInfo : PdfInfo
deriving Repr, DecidableEq

def selectMsg : String := "PDFを2つ選択してください。"
def loadFailAMsg : String := "PDF Aの読み込みに失敗しました。"
def loadFailBMsg : String := "PDF Bの読み込みに失敗しました。"
def mergingMsg : String := "結合中..."
def doneMsg : String := "完了しました。"
def mergeFailMsg : String := "結合に失敗しました。PDFを確認してください。"

/-- Initial state (`useState` initializers, lines 31–50). -/
def initialState : AppState :=
  { oddFile := none, evenFile := none, oddInfo := emptyInfo,
    evenInfo := emptyInfo, status := selectMsg, busy := false,
    downloadUrl := "", resultInfo := emptyInfo }

/-- `canMerge` (lines 59–62): both files selected and not busy. -/
def canMerge (s : AppState) : Bool :=
  s.oddFile.isSome && s.evenFile.isSome && !s.busy

/-- `handleOddChange` (lines 78–97): record the selection, clear the
artifact, then inspect the file; a parse failure resets the slot info and
shows the A-specific message. -/
def handleOddChange (file : Option PdfFile) (s : AppState) : AppState :=
  let s := { s with oddFile := file, downloadUrl := "", resultInfo := emptyInfo }
  match file with
  | none => { s with oddInfo := emptyInfo, status := selectMsg }
  | some f =>
    match f.parsed with
    | some pages =>
      { s with oddInfo := { name := f.name, pages := pages.length, size := f.size },
               status := selectMsg }
    | none => { s with status := loadFailAMsg, oddInfo := emptyInfo }

/-- `handleEvenChange` (lines 99–118), the B-side counterpart. -/
def handleEvenChange (file : Option PdfFile) (s : AppState) : AppState :=
  let s := { s with evenFile := file, downloadUrl := "", resultInfo := emptyInfo }
  match file with
  | none => { s with evenInfo := emptyInfo, status := selectMsg }
  | some f =>
    match f.parsed with
    | some pages =>
      { s with evenInfo := { name := f.name, pages := pages.length, size := f.size },
               status := selectMsg }
    | none => { s with status := loadFailBMsg, evenInfo := emptyInfo }

/-- Outcomes of the external calls made inside `mergePdfs`: `save` models
`output.save()` (serialized byte length, `none` = throw) and `url` the
`URL.createObjectURL` result for the produced blob. -/
structure MergeEnv where
  save : List Page → Option Nat
  url : String

/-- The state written by `mergePdfs` before any awaited work
(lines 122–124): busy on, progress status, download URL cleared.
Note the code does not clear `resultInfo` here. -/
def mergeStart (s : AppState) : AppState :=
  { s with busy := true, status := mergingMsg, downloadUrl := "" }

/-- `mergePdfs` (lines 120–172).  Early return when a file is missing;
otherwise the start-state is written, then reload + parse both files,
interleave with `mergePages`, serialize, and either publish the artifact or
fall into the `catch` (generic failure status); `finally` resets `busy`. -/
def mergePdfs (env : MergeEnv) (s : AppState) : AppState :=
  match s.oddFile, s.evenFile with
  | some of, some ef =>
    let s1 := mergeStart s
    match of.parsed, ef.parsed with
    | some oddPages, some evenPages =>
      let merged := mergePages oddPages evenPages
      match env.save merged with
      | some size =>
        let baseName := if of.name = "" then "interleaved.pdf" else of.name
        { s1 with downloadUrl := env.url,
                  resultInfo :=
                    { pages := merged.length, size := size,
                      name := "al-" ++ baseName },
                  status := doneMsg, busy := false }
      | none => { s1 with status := mergeFailMsg, busy := false }
    | _, _ => { s1 with status := mergeFailMsg, busy := false }
  | _, _ => s

/-- Pressing the merge button (line 213): `onClick={mergePdfs}` fires only
when the button is not `disabled={!canMerge}`. -/
def clickMerge (env : MergeEnv) (s : AppState) : AppState :=
  if canMerge s then mergePdfs env s else s

/-! ### `formatBytes` (`App.tsx` lines 4–14)

JavaScript numbers divided by 1024 stay exact (1024 is a power of two), so
`ℚ` models the arithmetic faithfully.  The final string interpolation
`value.toFixed(d) + " " + unit` delegates digit rendering to the runtime;
it is modelled structurally as the triple (value, decimal places, unit),
with a distinguished constructor for the `"-"` placeholder returned for an
absent/NaN byte count. -/

/-- Rendered size: either the `"-"` placeholder or a value with its number
of decimal places and its unit string. -/
inductive ByteText where
  | dash : ByteText
  | sized (value : ℚ) (decimals : Nat) (unit : String) : ByteText
deriving Repr, DecidableEq

/-- The `units` array of `formatBytes` (line 6). -/
def unitsList : List String := ["B", "KB", "MB", "GB"]

/-- The `while (value >= 1024 && idx < units.length - 1)` loop of
`formatBytes` (lines 9–12); `units.length - 1 = 3`. -/
def formatLoop (value : ℚ) (idx : Nat) : ℚ × Nat :=
  if h : 1024 ≤ value ∧ idx < 3 then formatLoop (value / 1024) (idx + 1)
  else (value, idx)
termination_by 3 - idx
decreasing_by omega

/-- `formatBytes` (lines 4–14).  `none` stands for an absent or NaN byte
count (the `!bytes && bytes !== 0` guard); otherwise the loop runs and the
result carries `toFixed(value >= 10 || idx === 0 ? 0 : 1)` decimal places
and `units[idx]`. -/
def formatBytes : Option ℚ → ByteText
  | none => ByteText.dash
  | some bytes =>
    let p := formatLoop bytes 0
    ByteText.sized p.1 (if 10 ≤ p.1 ∨ p.2 = 0 then 0 else 1)
      (unitsList.getD p.2 "")

/-- Closed form of the number of divisions the loop performs: the largest
`d ≤ 3` with `1024 ^ d ≤ b`. -/
def specIdx (b : ℚ) : Nat :=
  if 1024 ^ 3 ≤ b then 3
  else if 1024 ^ 2 ≤ b then 2
  else if 1024 ≤ b then 1
  else 0

/-! ### Concrete fixtures

Concrete files, environments and reachable states used to instantiate the
general theorems below. -/

/-- A three-page source file for slot A. -/
def fileA : PdfFile := { name := "report.pdf", size := 1000, parsed := some [0, 1, 2] }

/-- A two-page source file for slot B. -/
def fileB : PdfFile := { name := "notes.pdf", size := 800, parsed := some [10, 11] }

/-- A file whose bytes the PDF library rejects. -/
def badFile : PdfFile := { name := "bad.pdf", size := 10, parsed := none }

/-- A one-page source file literally named `interleaved.pdf`. -/
def fileI : PdfFile := { name := "interleaved.pdf", size := 500, parsed := some [30] }

/-- Environment in which serialization succeeds (100 bytes per page). -/
def envOk : MergeEnv := { save := fun l => some (100 * l.length), url := "blob:merged" }

/-- Environment in which `output.save()` fails. -/
def envFail : MergeEnv := { save := fun _ => none, url := "blob:unused" }

/-- Both slots loaded successfully, via the real handlers. -/
def readyState : AppState :=
  handleEvenChange (some fileB) (handleOddChange (some fileA) initialState)

/-- State holding the artifact of a completed successful merge. -/
def statePrior : AppState := mergePdfs envOk readyState

/-- Both slots loaded, slot A holding `fileI`. -/
def stateI : AppState :=
  handleEvenChange (some fileB) (handleOddChange (some fileI) initialState)

/-- A second completed-merge state, with `fileI` on slot A. -/
def statePriorI : AppState := mergePdfs envOk stateI

theorem catMap_nil {α : Type} (g : Nat → List α) : catMap g [] = [] := rfl

theorem catMap_cons {α : Type} (g : Nat → List α) (i : Nat) (l : List Nat) :
    catMap g (i :: l) = g i ++ catMap g l := rfl

theorem catMap_map {α : Type} (g : Nat → List α) (f : Nat → Nat) (l : List Nat) :
    catMap g (l.map f) = catMap (fun i => g (f i)) l := by
  induction l with
  | nil => rfl
  | cons i l ih => simp [catMap_cons, ih]

theorem foldl_append_eq_catMap {α : Type} (g : Nat → List α) :
    ∀ (l : List Nat) (init : List α),
      l.foldl (fun acc i => acc ++ g i) init = init ++ catMap g l := by
  intro l
  induction l with
  | nil => intro init; simp [catMap_nil]
  | cons i l ih =>
    intro init
    simp only [List.foldl_cons, ih, catMap_cons, List.append_assoc]

theorem pageAt_nil {α : Type} (i : Nat) : pageAt ([] : List α) i = [] := by
  simp [pageAt]

theorem pageAt_cons_zero {α : Type} (x : α) (l : List α) :
    pageAt (x :: l) 0 = [x] := by
  simp [pageAt]

theorem pageAt_cons_succ {α : Type} (x : α) (l : List α) (i : Nat) :
    pageAt (x :: l) (i + 1) = pageAt l i := by
  by_cases h : i < l.length
  · simp [pageAt, h]
  · simp [pageAt, h]

/-- The loop body of `mergePages` appends exactly
`pageAt oddPages i ++ pageAt evenPages i` at step `i`. -/
theorem mergePages_eq_catMap {α : Type} (A B : List α) :
    mergePages A B =
      catMap (fun i => pageAt A i ++ pageAt B i)
        (List.range (max A.length B.length)) := by
  have hbody :
      (fun (acc : List α) i =>
        let acc1 := if h : i < A.length then acc ++ [A[i]] else acc
        if h : i < B.length then acc1 ++ [B[i]] else acc1) =
      fun acc i => acc ++ (pageAt A i ++ pageAt B i) := by
    funext acc i
    by_cases h1 : i < A.length <;> by_cases h2 : i < B.length <;>
      simp [pageAt, h1, h2]
  rw [mergePages, hbody, foldl_append_eq_catMap]
  simp

theorem catMap_range_pageAt {α : Type} :
    ∀ l : List α, catMap (fun i => pageAt l i) (List.range l.length) = l := by
  intro l
  induction l with
  | nil => rfl
  | cons x l ih =>
    rw [List.length_cons, List.range_succ_eq_map, catMap_cons, catMap_map]
    simp only [pageAt_cons_zero, pageAt_cons_succ]
    rw [ih]
    rfl

/-- The merge loop realizes the structural alternation `altcat`. -/
theorem mergePages_eq_altcat {α : Type} :
    ∀ A B : List α, mergePages A B = altcat A B := by
  intro A
  induction A with
  | nil =>
    intro B
    rw [mergePages_eq_catMap]
    have h : (fun i => pageAt ([] : List α) i ++ pageAt B i) =
        fun i => pageAt B i := by
      funext i; simp [pageAt_nil]
    simp only [List.length_nil, Nat.max_eq_right (Nat.zero_le _), h]
    rw [catMap_range_pageAt]
    rfl
  | cons a A ih =>
    intro B
    cases B with
    | nil =>
      rw [mergePages_eq_catMap]
      have h : (fun i => pageAt (a :: A) i ++ pageAt ([] : List α) i) =
          fun i => pageAt (a :: A) i := by
        funext i; simp [pageAt_nil]
      simp only [List.length_nil, Nat.max_eq_left (Nat.zero_le _), h]
      rw [catMap_range_pageAt]
      rfl
    | cons b B =>
      rw [mergePages_eq_catMap]
      have hmax : max (a :: A).length (b :: B).length =
          max A.length B.length + 1 := by
        simp [Nat.succ_max_succ]
      rw [hmax, List.range_succ_eq_map, catMap_cons, catMap_map]
      simp only [pageAt_cons_zero, pageAt_cons_succ]
      have := mergePages_eq_catMap A B
      rw [altcat, ← ih B, mergePages_eq_catMap A B]
      rfl

theorem altcat_nil_left {α : Type} (B : List α) : altcat [] B = B := rfl

theorem altcat_nil_right {α : Type} (A : List α) : altcat A [] = A := by
  cases A <;> rfl

theorem altcat_length {α : Type} :
    ∀ A B : List α, (altcat A B).length = A.length + B.length := by
  intro A
  induction A with
  | nil => intro B; simp [altcat_nil_left]
  | cons a A ih =>
    intro B
    cases B with
    | nil => simp [altcat_nil_right]
    | cons b B => simp [altcat, ih]; omega

theorem altcat_getElem_min {α : Type} :
    ∀ (k : Nat) (A B : List α), k < min A.length B.length →
      (altcat A B)[2 * k]? = A[k]? ∧ (altcat A B)[2 * k + 1]? = B[k]? := by
  intro k
  induction k with
  | zero =>
    intro A B h
    match A, B with
    | [], _ => simp at h
    | _ :: _, [] => simp at h
    | a :: A, b :: B => simp [altcat]
  | succ k ih =>
    intro A B h
    match A, B with
    | [], _ => simp at h
    | _ :: _, [] => simp at h
    | a :: A, b :: B =>
      have hk : k < min A.length B.length := by
        simp only [List.length_cons, Nat.succ_min_succ] at h
        omega
      have e1 : 2 * (k + 1) = 2 * k + 1 + 1 := by ring
      rw [altcat, e1]
      simp only [List.getElem?_cons_succ]
      exact ih A B hk

theorem altcat_drop_left {α : Type} :
    ∀ (B A : List α), B.length ≤ A.length →
      (altcat A B).drop (2 * B.length) = A.drop B.length := by
  intro B
  induction B with
  | nil => intro A _; simp [altcat_nil_right]
  | cons b B ih =>
    intro A h
    cases A with
    | nil => simp at h
    | cons a A =>
      have hA : B.length ≤ A.length := by simpa using h
      have e : 2 * (b :: B).length = 2 * B.length + 1 + 1 := by
        simp [List.length_cons]; ring
      rw [altcat, e]
      simp only [List.drop_succ_cons]
      rw [ih A hA]
      simp

theorem altcat_drop_right {α : Type} :
    ∀ (A B : List α), A.length ≤ B.length →
      (altcat A B).drop (2 * A.length) = B.drop A.length := by
  intro A
  induction A with
  | nil => intro B _; simp [altcat_nil_left]
  | cons a A ih =>
    intro B h
    cases B with
    | nil => simp at h
    | cons b B =>
      have hB : A.length ≤ B.length := by simpa using h
      have e : 2 * (a :: A).length = 2 * A.length + 1 + 1 := by
        simp [List.length_cons]; ring
      rw [altcat, e]
      simp only [List.drop_succ_cons]
      rw [ih B hB]
      simp

theorem formatLoop_of_not (value : ℚ) (idx : Nat)
    (h : ¬(1024 ≤ value ∧ idx < 3)) : formatLoop value idx = (value, idx) := by
  rw [formatLoop]
  simp [h]

theorem formatLoop_of_step (value : ℚ) (idx : Nat)
    (h : 1024 ≤ value ∧ idx < 3) :
    formatLoop value idx = formatLoop (value / 1024) (idx + 1) := by
  rw [formatLoop]
  simp [h]

/-- The loop computes the closed form: `specIdx b` divisions by 1024. -/
theorem formatLoop_eq_specIdx (b : ℚ) :
    formatLoop b 0 = (b / 1024 ^ specIdx b, specIdx b) := by
  have h1024 : (0:ℚ) < 1024 := by norm_num
  by_cases h1 : 1024 ≤ b
  · by_cases h2 : 1024 ^ 2 ≤ b
    · by_cases h3 : 1024 ^ 3 ≤ b
      · have s1 : (1024:ℚ) ≤ b / 1024 := by
          rw [le_div_iff₀ h1024]; calc (1024:ℚ) * 1024 = 1024 ^ 2 := by ring
            _ ≤ b := h2
        have s2 : (1024:ℚ) ≤ b / 1024 / 1024 := by
          rw [le_div_iff₀ h1024, le_div_iff₀ h1024]
          calc (1024:ℚ) * 1024 * 1024 = 1024 ^ 3 := by ring
            _ ≤ b := h3
        rw [formatLoop_of_step b 0 ⟨h1, by omega⟩,
          formatLoop_of_step _ 1 ⟨s1, by omega⟩,
          formatLoop_of_step _ 2 ⟨s2, by omega⟩,
          formatLoop_of_not _ 3 (by omega)]
        rw [specIdx, if_pos h3]
        norm_num
        ring
      · have s1 : (1024:ℚ) ≤ b / 1024 := by
          rw [le_div_iff₀ h1024]; calc (1024:ℚ) * 1024 = 1024 ^ 2 := by ring
            _ ≤ b := h2
        have s2 : ¬(1024:ℚ) ≤ b / 1024 / 1024 := by
          rw [le_div_iff₀ h1024, le_div_iff₀ h1024]
          intro hc
          exact h3 (by calc (1024:ℚ) ^ 3 = 1024 * 1024 * 1024 := by ring
            _ ≤ b := hc)
        rw [formatLoop_of_step b 0 ⟨h1, by omega⟩,
          formatLoop_of_step _ 1 ⟨s1, by omega⟩,
          formatLoop_of_not _ 2 (by simp [s2])]
        rw [specIdx, if_neg h3, if_pos h2]
        norm_num
        ring
    · have s1 : ¬(1024:ℚ) ≤ b / 1024 := by
        rw [le_div_iff₀ h1024]
        intro hc
        exact h2 (by calc (1024:ℚ) ^ 2 = 1024 * 1024 := by ring
          _ ≤ b := hc)
      have h3 : ¬(1024:ℚ) ^ 3 ≤ b := by
        intro hc
        exact h2 (le_trans (by norm_num) hc)
      rw [formatLoop_of_step b 0 ⟨h1, by omega⟩,
        formatLoop_of_not _ 1 (by simp [s1])]
      rw [specIdx, if_neg h3, if_neg h2, if_pos h1]
      norm_num
  · have h2 : ¬(1024:ℚ) ^ 2 ≤ b := by
      intro hc
      exact h1 (le_trans (by norm_num) hc)
    have h3 : ¬(1024:ℚ) ^ 3 ≤ b := by
      intro hc
      exact h1 (le_trans (by norm_num) hc)
    rw [formatLoop_of_not b 0 (by simp [h1])]
    rw [specIdx, if_neg h3, if_neg h2, if_neg h1]
    norm_num

/-! ### Claim theorems -/

/-- Claim C1: a successful merge's page sequence is the strict alternation
by index — on the common prefix, output page `2k` is A's page `k` and
output page `2k+1` is B's page `k`; beyond the alternating prefix the
remaining pages of the longer source follow in original order with no gaps
or duplication. -/
theorem mergePages_strict_alternation (A B : List Page) :
    (∀ k, k < min A.length B.length →
      (mergePages A B)[2 * k]? = A[k]? ∧ (mergePages A B)[2 * k + 1]? = B[k]?) ∧
    (B.length ≤ A.length →
      (mergePages A B).drop (2 * B.length) = A.drop B.length) ∧
    (A.length ≤ B.length →
      (mergePages A B).drop (2 * A.length) = B.drop A.length) := by
  rw [mergePages_eq_altcat]
  exact ⟨fun k hk => altcat_getElem_min k A B hk,
    fun h => altcat_drop_left B A h,
    fun h => altcat_drop_right A B h⟩

/-- Witness for C1 at A = `[0,1,2]`, B = `[10,11]`. -/
theorem mergePages_strict_alternation_witness :
    (mergePages ([0, 1, 2] : List Page) [10, 11])[2 * 1]? = ([0, 1, 2] : List Page)[1]? ∧
    (mergePages ([0, 1, 2] : List Page) [10, 11])[2 * 1 + 1]? = ([10, 11] : List Page)[1]? ∧
    (mergePages ([0, 1, 2] : List Page) [10, 11]).drop (2 * 2) = ([0, 1, 2] : List Page).drop 2 :=
  ⟨((mergePages_strict_alternation [0, 1, 2] [10, 11]).1 1 (by decide)).1,
   ((mergePages_strict_alternation [0, 1, 2] [10, 11]).1 1 (by decide)).2,
   (mergePages_strict_alternation [0, 1, 2] [10, 11]).2.1 (by decide)⟩

/-- Claim C2: a successful merge yields `a + b` pages and the reported
result metadata carries that page count. -/
theorem merge_page_count_eq_sum (env : MergeEnv) (s : AppState)
    (of ef : PdfFile) (A B : List Page) (n : Nat)
    (ho : s.oddFile = some of) (he : s.evenFile = some ef)
    (hA : of.parsed = some A) (hB : ef.parsed = some B)
    (hs : env.save (mergePages A B) = some n) :
    (mergePages A B).length = A.length + B.length ∧
    (mergePdfs env s).resultInfo.pages = A.length + B.length := by
  have hlen : (mergePages A B).length = A.length + B.length := by
    rw [mergePages_eq_altcat]; exact altcat_length A B
  refine ⟨hlen, ?_⟩
  simp [mergePdfs, ho, he, hA, hB, hs, mergeStart, hlen]

/-- Witness for C2 on `readyState` with `envOk`. -/
theorem merge_page_count_eq_sum_witness :
    (mergePages ([0, 1, 2] : List Page) [10, 11]).length = 3 + 2 ∧
    (mergePdfs envOk readyState).resultInfo.pages = 3 + 2 := by
  have h := merge_page_count_eq_sum envOk readyState fileA fileB [0, 1, 2] [10, 11]
    500 (by decide) (by decide) rfl rfl (by decide)
  simpa using h

/-- Claim C5: while a merge is running (`busy = true`), pressing the merge
trigger is a readiness-guarded no-op — the state is unchanged. -/
theorem busy_click_noop (env : MergeEnv) (s : AppState) (h : s.busy = true) :
    clickMerge env s = s := by
  simp [clickMerge, canMerge, h]

/-- Witness for C5: clicking during the running-merge state does nothing. -/
theorem busy_click_noop_witness :
    clickMerge envOk (mergeStart readyState) = mergeStart readyState :=
  busy_click_noop envOk (mergeStart readyState) (by decide)

/-- Claim C7: a failing load on one slot leaves the other slot's file and
metadata unchanged, resets the failing slot's metadata to its empty state
with a slot-specific status message, and clears any previous artifact. -/
theorem load_failure_isolation (s : AppState) (f : PdfFile)
    (hf : f.parsed = none) :
    (handleOddChange (some f) s).evenFile = s.evenFile ∧
    (handleOddChange (some f) s).evenInfo = s.evenInfo ∧
    (handleOddChange (some f) s).oddInfo = emptyInfo ∧
    (handleOddChange (some f) s).status = loadFailAMsg ∧
    (handleOddChange (some f) s).downloadUrl = "" ∧
    (handleOddChange (some f) s).resultInfo = emptyInfo ∧
    (handleEvenChange (some f) s).oddFile = s.oddFile ∧
    (handleEvenChange (some f) s).oddInfo = s.oddInfo ∧
    (handleEvenChange (some f) s).evenInfo = emptyInfo ∧
    (handleEvenChange (some f) s).status = loadFailBMsg ∧
    (handleEvenChange (some f) s).downloadUrl = "" ∧
    (handleEvenChange (some f) s).resultInfo = emptyInfo ∧
    loadFailAMsg ≠ loadFailBMsg := by
  have hmsg : loadFailAMsg ≠ loadFailBMsg := by decide
  refine ⟨?_, ?_, ?_, ?_, ?_, ?_, ?_, ?_, ?_, ?_, ?_, ?_, hmsg⟩ <;>
    simp [handleOddChange, handleEvenChange, hf]

/-- Witness for C7: a bad file dropped on slot A of the fully-loaded state. -/
theorem load_failure_isolation_witness :
    (handleOddChange (some badFile) readyState).evenFile = readyState.evenFile ∧
    (handleOddChange (some badFile) readyState).status = loadFailAMsg :=
  ⟨(load_failure_isolation readyState badFile rfl).1,
   (load_failure_isolation readyState badFile rfl).2.2.2.1⟩

/-- Claim C10: every merge invocation with both files present ends with
`busy = false`, so the readiness condition can be satisfied again. -/
theorem merge_resets_busy (env : MergeEnv) (s : AppState)
    (ho : s.oddFile.isSome) (he : s.evenFile.isSome) :
    (mergePdfs env s).busy = false ∧ canMerge (mergePdfs env s) = true := by
  obtain ⟨of, ho'⟩ := Option.isSome_iff_exists.mp ho
  obtain ⟨ef, he'⟩ := Option.isSome_iff_exists.mp he
  rcases hA : of.parsed with _ | A
  · constructor <;> simp [mergePdfs, ho', he', hA, mergeStart, canMerge]
  · rcases hB : ef.parsed with _ | B
    · constructor <;> simp [mergePdfs, ho', he', hA, hB, mergeStart, canMerge]
    · rcases hs : env.save (mergePages A B) with _ | n
      · constructor <;> simp [mergePdfs, ho', he', hA, hB, hs, mergeStart, canMerge]
      · constructor <;> simp [mergePdfs, ho', he', hA, hB, hs, mergeStart, canMerge]

/-- Witness for C10: a failing merge (serialization error) still ends
non-busy and ready. -/
theorem merge_resets_busy_witness :
    (mergePdfs envFail readyState).busy = false ∧
    canMerge (mergePdfs envFail readyState) = true :=
  merge_resets_busy envFail readyState (by decide) (by decide)

/-- Claim C3 counterexample: after slot A's file fails to load, the slot is
not treated as absent — with slot B loaded, `canMerge` is still true and
pressing the trigger is not a no-op (the merge runs and fails). -/
theorem failed_load_slot_not_absent_cex :
    canMerge (handleOddChange (some badFile)
      (handleEvenChange (some fileB) initialState)) = true ∧
    clickMerge envOk (handleOddChange (some badFile)
        (handleEvenChange (some fileB) initialState)) ≠
      handleOddChange (some badFile)
        (handleEvenChange (some fileB) initialState) := by
  decide

/-- Claim C3 amended: a failed load resets the slot's metadata and shows the
slot-specific message, but the file stays selected; with the other slot
loaded and no merge running, the merge can still be triggered — it runs,
fails with the generic merge-failure status, and produces no output. -/
theorem failed_load_merge_runs_and_fails (env : MergeEnv) (s : AppState)
    (f : PdfFile) (hf : f.parsed = none) (hb : s.busy = false)
    (he : s.evenFile.isSome) :
    (handleOddChange (some f) s).oddInfo = emptyInfo ∧
    (handleOddChange (some f) s).status = loadFailAMsg ∧
    (handleOddChange (some f) s).oddFile = some f ∧
    canMerge (handleOddChange (some f) s) = true ∧
    (mergePdfs env (handleOddChange (some f) s)).downloadUrl = "" ∧
    (mergePdfs env (handleOddChange (some f) s)).status = mergeFailMsg ∧
    (mergePdfs env (handleOddChange (some f) s)).resultInfo = emptyInfo ∧
    (mergePdfs env (handleOddChange (some f) s)).busy = false := by
  obtain ⟨ef, he'⟩ := Option.isSome_iff_exists.mp he
  refine ⟨?_, ?_, ?_, ?_, ?_, ?_, ?_, ?_⟩ <;>
    simp [handleOddChange, hf, hb, he', canMerge, mergePdfs, mergeStart]

/-- Witness for the amended C3 on the concrete bad file. -/
theorem failed_load_merge_runs_and_fails_witness :
    canMerge (handleOddChange (some badFile)
      (handleEvenChange (some fileB) initialState)) = true ∧
    (mergePdfs envOk (handleOddChange (some badFile)
      (handleEvenChange (some fileB) initialState))).status = mergeFailMsg :=
  ⟨(failed_load_merge_runs_and_fails envOk
      (handleEvenChange (some fileB) initialState) badFile rfl (by decide)
      (by decide)).2.2.2.1,
   (failed_load_merge_runs_and_fails envOk
      (handleEvenChange (some fileB) initialState) badFile rfl (by decide)
      (by decide)).2.2.2.2.2.1⟩

/-- Claim C4 counterexample: when serialization fails, the prior artifact's
result metadata is preserved, not cleared — refuting "download URL and
result metadata are cleared". -/
theorem merge_failure_keeps_metadata_cex :
    (mergePdfs envFail statePrior).resultInfo =
      { name := "al-report.pdf", pages := 5, size := 500 } ∧
    ({ name := "al-report.pdf", pages := 5, size := 500 } : PdfInfo) ≠
      emptyInfo := by
  decide

/-- Claim C4 amended: a merge that fails during serialization exposes no
partial artifact (the download URL is cleared), shows the generic failure
status, resets `busy`, and leaves both source slots untouched; the prior
result metadata, however, is preserved, not cleared. -/
theorem merge_failure_frame (env : MergeEnv) (s : AppState)
    (of ef : PdfFile) (A B : List Page)
    (ho : s.oddFile = some of) (he : s.evenFile = some ef)
    (hA : of.parsed = some A) (hB : ef.parsed = some B)
    (hs : env.save (mergePages A B) = none) :
    (mergePdfs env s).downloadUrl = "" ∧
    (mergePdfs env s).status = mergeFailMsg ∧
    (mergePdfs env s).busy = false ∧
    (mergePdfs env s).oddFile = s.oddFile ∧
    (mergePdfs env s).evenFile = s.evenFile ∧
    (mergePdfs env s).oddInfo = s.oddInfo ∧
    (mergePdfs env s).evenInfo = s.evenInfo ∧
    (mergePdfs env s).resultInfo = s.resultInfo := by
  refine ⟨?_, ?_, ?_, ?_, ?_, ?_, ?_, ?_⟩ <;>
    simp [mergePdfs, ho, he, hA, hB, hs, mergeStart]

/-- Witness for the amended C4 on the prior-artifact state with the failing
serializer. -/
theorem merge_failure_frame_witness :
    (mergePdfs envFail statePrior).downloadUrl = "" ∧
    (mergePdfs envFail statePrior).resultInfo = statePrior.resultInfo :=
  ⟨(merge_failure_frame envFail statePrior fileA fileB [0, 1, 2] [10, 11]
      (by decide) (by decide) rfl rfl rfl).1,
   (merge_failure_frame envFail statePrior fileA fileB [0, 1, 2] [10, 11]
      (by decide) (by decide) rfl rfl rfl).2.2.2.2.2.2.2⟩

/-- Claim C6 counterexample: with source A literally named
`interleaved.pdf` (a nonempty name), a successful merge's suggested name is
the literal `al-interleaved.pdf` — refuting "equals the literal exactly
when source A's file name is empty". -/
theorem fallback_literal_name_nonempty_cex :
    fileI.name ≠ "" ∧
    (mergePdfs envOk stateI).status = doneMsg ∧
    (mergePdfs envOk stateI).resultInfo.name = "al-interleaved.pdf" := by
  decide

/-- Claim C6 amended: a successful merge's suggested name is
`"al-" ++ A.name` when A's name is nonempty and the literal
`"al-interleaved.pdf"` when A's name is empty (the same literal also arises
for a file named `interleaved.pdf`); B's name never influences the result
(the name below depends only on `of.name`). -/
theorem merged_artifact_name (env : MergeEnv) (s : AppState)
    (of ef : PdfFile) (A B : List Page) (n : Nat)
    (ho : s.oddFile = some of) (he : s.evenFile = some ef)
    (hA : of.parsed = some A) (hB : ef.parsed = some B)
    (hs : env.save (mergePages A B) = some n) :
    (mergePdfs env s).resultInfo.name =
      "al-" ++ (if of.name = "" then "interleaved.pdf" else of.name) ∧
    (of.name = "" → (mergePdfs env s).resultInfo.name = "al-interleaved.pdf") := by
  have h1 : (mergePdfs env s).resultInfo.name =
      "al-" ++ (if of.name = "" then "interleaved.pdf" else of.name) := by
    simp [mergePdfs, ho, he, hA, hB, hs, mergeStart]
  refine ⟨h1, fun hemp => ?_⟩
  rw [h1, if_pos hemp]
  rfl

/-- Witness for the amended C6 on `readyState` (A = `report.pdf`). -/
theorem merged_artifact_name_witness :
    (mergePdfs envOk readyState).resultInfo.name =
      "al-" ++ (if fileA.name = "" then "interleaved.pdf" else fileA.name) :=
  (merged_artifact_name envOk readyState fileA fileB [0, 1, 2] [10, 11] 500
    (by decide) (by decide) rfl rfl (by decide)).1

/-- Claim C8 counterexample: a new merge request clears only the download
URL — immediately after the request (`mergeStart`), the prior result
metadata is still present, refuting "download URL and result metadata are
cleared". -/
theorem merge_request_keeps_metadata_cex :
    (mergeStart statePriorI).downloadUrl = "" ∧
    (mergeStart statePriorI).resultInfo =
      { name := "al-interleaved.pdf", pages := 3, size := 300 } ∧
    ({ name := "al-interleaved.pdf", pages := 3, size := 300 } : PdfInfo) ≠
      emptyInfo := by
  decide

/-- Claim C8 amended: changing either source selection immediately clears
both the download URL and the result metadata; a new merge request
immediately clears only the download URL (the metadata is replaced only by
a later success), and after the merge the download URL is never the stale
one — it is either empty or the freshly created URL. -/
theorem artifact_clearing_on_transitions (s : AppState) (file : Option PdfFile) :
    (handleOddChange file s).downloadUrl = "" ∧
    (handleOddChange file s).resultInfo = emptyInfo ∧
    (handleEvenChange file s).downloadUrl = "" ∧
    (handleEvenChange file s).resultInfo = emptyInfo ∧
    (mergeStart s).downloadUrl = "" ∧
    (mergeStart s).resultInfo = s.resultInfo ∧
    (∀ (env : MergeEnv) (of ef : PdfFile), s.oddFile = some of →
      s.evenFile = some ef →
      (mergePdfs env s).downloadUrl = "" ∨
      (mergePdfs env s).downloadUrl = env.url) := by
  have hhandlers :
      (handleOddChange file s).downloadUrl = "" ∧
      (handleOddChange file s).resultInfo = emptyInfo ∧
      (handleEvenChange file s).downloadUrl = "" ∧
      (handleEvenChange file s).resultInfo = emptyInfo := by
    rcases file with _ | f
    · refine ⟨?_, ?_, ?_, ?_⟩ <;> simp [handleOddChange, handleEvenChange]
    · rcases hf : f.parsed with _ | pages <;>
        refine ⟨?_, ?_, ?_, ?_⟩ <;>
        simp [handleOddChange, handleEvenChange, hf]
  refine ⟨hhandlers.1, hhandlers.2.1, hhandlers.2.2.1, hhandlers.2.2.2,
    by simp [mergeStart], by simp [mergeStart], ?_⟩
  intro env of ef ho he
  rcases hA : of.parsed with _ | A
  · left; simp [mergePdfs, ho, he, hA, mergeStart]
  · rcases hB : ef.parsed with _ | B
    · left; simp [mergePdfs, ho, he, hA, hB, mergeStart]
    · rcases hs : env.save (mergePages A B) with _ | n
      · left; simp [mergePdfs, ho, he, hA, hB, hs, mergeStart]
      · right; simp [mergePdfs, ho, he, hA, hB, hs, mergeStart]

/-- Witness for the amended C8: a successful merge from `readyState` leaves
the fresh URL, not the stale one. -/
theorem artifact_clearing_on_transitions_witness :
    (mergePdfs envOk readyState).downloadUrl = "" ∨
    (mergePdfs envOk readyState).downloadUrl = envOk.url :=
  (artifact_clearing_on_transitions readyState (some fileA)).2.2.2.2.2.2
    envOk fileA fileB (by decide) (by decide)

theorem le_div_pow_iff (b : ℚ) (j : Nat) :
    1024 ≤ b / 1024 ^ j ↔ 1024 ^ (j + 1) ≤ b := by
  rw [le_div_iff₀ (pow_pos (by norm_num : (0:ℚ) < 1024) j), mul_comm,
    ← pow_succ]

theorem div_pow_lt_iff (b : ℚ) (j : Nat) :
    b / 1024 ^ j < 1024 ↔ b < 1024 ^ (j + 1) := by
  rw [div_lt_iff₀ (pow_pos (by norm_num : (0:ℚ) < 1024) j), mul_comm,
    ← pow_succ]

/-- Range facts about the closed-form division count. -/
theorem specIdx_spec (b : ℚ) :
    specIdx b ≤ 3 ∧
    (specIdx b < 3 → b / 1024 ^ specIdx b < 1024) ∧
    (∀ j, j < specIdx b → 1024 ≤ b / 1024 ^ j) := by
  unfold specIdx
  by_cases h3 : (1024:ℚ) ^ 3 ≤ b
  · rw [if_pos h3]
    refine ⟨le_refl 3, by omega, ?_⟩
    intro j hj
    interval_cases j <;>
      (rw [le_div_pow_iff]; exact le_trans (by norm_num) h3)
  · rw [if_neg h3]
    by_cases h2 : (1024:ℚ) ^ 2 ≤ b
    · rw [if_pos h2]
      refine ⟨by omega, fun _ => ?_, ?_⟩
      · rw [div_pow_lt_iff]
        exact lt_of_not_le h3
      · intro j hj
        interval_cases j <;>
          (rw [le_div_pow_iff]; exact le_trans (by norm_num) h2)
    · rw [if_neg h2]
      by_cases h1 : (1024:ℚ) ≤ b
      · rw [if_pos h1]
        refine ⟨by omega, fun _ => ?_, ?_⟩
        · rw [div_pow_lt_iff]
          exact lt_of_not_le h2
        · intro j hj
          interval_cases j
          rw [le_div_pow_iff]
          exact le_trans (by norm_num) h1
      · rw [if_neg h1]
        refine ⟨by omega, fun _ => ?_, ?_⟩
        · rw [div_pow_lt_iff]
          exact lt_of_le_of_lt (le_of_eq (by norm_num)) 
            (lt_of_lt_of_le (lt_of_not_le h1) (by norm_num))
        · intro j hj
          omega

/-- Claim C9: the displayed size is computed by dividing the byte count by
1024 while it stays ≥ 1024 and fewer than 3 divisions occurred (`specIdx`
divisions in closed form), the unit is drawn from `B, KB, MB, GB` by the
division count, the value is rendered with 0 decimal places when it is
≥ 10 or no division occurred and 1 decimal place otherwise, and an absent
byte count renders as the placeholder. -/
theorem formatBytes_contract :
    formatBytes none = ByteText.dash ∧
    ∀ b : ℚ, 0 ≤ b →
      formatBytes (some b) =
        ByteText.sized (b / 1024 ^ specIdx b)
          (if 10 ≤ b / 1024 ^ specIdx b ∨ specIdx b = 0 then 0 else 1)
          (unitsList.getD (specIdx b) "") ∧
      specIdx b ≤ 3 ∧
      (specIdx b < 3 → b / 1024 ^ specIdx b < 1024) ∧
      (∀ j, j < specIdx b → 1024 ≤ b / 1024 ^ j) := by
  refine ⟨rfl, fun b _ => ⟨?_, specIdx_spec b⟩⟩
  show (let p := formatLoop b 0
    ByteText.sized p.1 (if 10 ≤ p.1 ∨ p.2 = 0 then 0 else 1)
      (unitsList.getD p.2 "")) = _
  rw [formatLoop_eq_specIdx b]

/-- Witness for C9 at b = 2048 (one division, one decimal place, unit KB). -/
theorem formatBytes_contract_witness :
    (0:ℚ) ≤ 2048 ∧
    formatBytes (some 2048) =
      ByteText.sized ((2048:ℚ) / 1024 ^ specIdx 2048)
        (if 10 ≤ (2048:ℚ) / 1024 ^ specIdx 2048 ∨ specIdx 2048 = 0 then 0
         else 1)
        (unitsList.getD (specIdx 2048) "") ∧
    (2048:ℚ) / 1024 ^ specIdx 2048 < 1024 ∧
    (1024:ℚ) ≤ 2048 / 1024 ^ 0 :=
  ⟨by norm_num,
   (formatBytes_contract.2 2048 (by norm_num)).1,
   (formatBytes_contract.2 2048 (by norm_num)).2.2.1 (by
      rw [specIdx]; norm_num),
   (formatBytes_contract.2 2048 (by norm_num)).2.2.2 0 (by
      rw [specIdx]; norm_num)⟩

end PdfInterleave
